import Mathlib

/-!
Verification of the resource-resolution and caching core of a CLI client
for a project-management API (planecli).  The definitions below are shallow
embeddings of the Python source files `planecli/api/async_sdk.py`,
`planecli/utils/fuzzy.py`, `planecli/cache.py` and `planecli/utils/resolve.py`.
External effects (HTTP calls, cache backend I/O) are modelled as explicit
oracles / state passed in; exceptions are modelled with `Except`.
-/

namespace PlaneCli

/-- A Python exception as seen by the retry / resolution layer:
either a `plane.errors.HttpError` carrying a numeric `status_code`
(plus an abstract payload distinguishing otherwise-equal errors),
or any other exception (abstract tag). -/
inductive PyError where
  | http (status_code : Nat) (payload : Nat)
  | other (tag : Nat)
deriving DecidableEq, Repr

/-- `_is_retryable` from `async_sdk.py` (identical copy in `resolve.py`):
an exception is retryable iff it is an `HttpError` with status
429, 502, 503 or 504. -/
def _is_retryable : PyError → Bool
  | .http s _ => s == 429 || s == 502 || s == 503 || s == 504
  | .other _ => false

instance {ε α : Type} [DecidableEq ε] [DecidableEq α] : DecidableEq (Except ε α) :=
  fun x y =>
    match x, y with
    | .ok a, .ok b =>
      if h : a = b then .isTrue (by rw [h])
      else .isFalse (by intro hh; exact h (by injection hh))
    | .error e, .error f =>
      if h : e = f then .isTrue (by rw [h])
      else .isFalse (by intro hh; exact h (by injection hh))
    | .ok _, .error _ => .isFalse (by intro hh; exact Except.noConfusion hh)
    | .error _, .ok _ => .isFalse (by intro hh; exact Except.noConfusion hh)

/-- Whether an `Except` outcome is a retryable error. -/
def errRetryable : Except PyError α → Bool
  | .error e => _is_retryable e
  | .ok _ => false

/-- The tenacity retry loop with `retry_if_exception(_is_retryable)`,
`stop_after_attempt`, `reraise=True`.  `f k` is the outcome of the
(0-based) attempt `k`; `n` is the number of retries still allowed after
the current attempt (so `n = 4` at the first of 5 total attempts);
`i` is the index of the current attempt.  Returns the final outcome
together with the total number of attempts made. -/
def retryLoop (f : Nat → Except PyError α) : Nat → Nat → Except PyError α × Nat
  | 0, i => (f i, i + 1)
  | n + 1, i =>
    match f i with
    | .ok v => (.ok v, i + 1)
    | .error e => if _is_retryable e then retryLoop f n (i + 1) else (.error e, i + 1)

/-- `run_sdk` from `async_sdk.py`: executes a call with up to 5 total
attempts, retrying only retryable errors, re-raising the last error
unchanged (`reraise=True`).  The semaphore/thread-pool mechanics carry no
sequential meaning and are not part of the model. -/
def run_sdk (f : Nat → Except PyError α) : Except PyError α × Nat :=
  retryLoop f 4 0

/-- `run_sdk` keeps the result of a successful first attempt. -/
theorem run_sdk_ok (f : Nat → Except PyError α) (v : α) (h : f 0 = .ok v) :
    run_sdk f = (.ok v, 1) := by
  unfold run_sdk retryLoop
  rw [h]

/-- C1: through `run_sdk`, a call whose every attempt fails with a
retryable HTTP error (status 429/502/503/504) is attempted exactly 5
times, after which the error of the last attempt is re-raised unchanged;
a call whose first attempt fails with any non-retryable error is
attempted exactly once, and that error propagates unwrapped. -/
theorem run_sdk_retry_policy (f : Nat → Except PyError α) :
    ((∀ k, k < 5 → errRetryable (f k) = true) →
      ∃ e, f 4 = .error e ∧ _is_retryable e = true ∧ run_sdk f = (.error e, 5))
    ∧ (∀ e, f 0 = .error e → _is_retryable e = false →
        run_sdk f = (.error e, 1)) := by
  constructor
  · intro h
    have h4 := h 4 (by omega)
    have get_err : ∀ k, errRetryable (f k) = true →
        ∃ e, f k = .error e ∧ _is_retryable e = true := by
      intro k hk
      cases hfk : f k with
      | ok v => rw [hfk] at hk; simp [errRetryable] at hk
      | error e => exact ⟨e, rfl, by rw [hfk] at hk; simpa [errRetryable] using hk⟩
    obtain ⟨e4, he4, hr4⟩ := get_err 4 h4
    refine ⟨e4, he4, hr4, ?_⟩
    obtain ⟨e0, he0, hr0⟩ := get_err 0 (h 0 (by omega))
    obtain ⟨e1, he1, hr1⟩ := get_err 1 (h 1 (by omega))
    obtain ⟨e2, he2, hr2⟩ := get_err 2 (h 2 (by omega))
    obtain ⟨e3, he3, hr3⟩ := get_err 3 (h 3 (by omega))
    unfold run_sdk retryLoop
    rw [he0]
    simp only [hr0, if_true]
    unfold retryLoop
    rw [he1]
    simp only [hr1, if_true]
    unfold retryLoop
    rw [he2]
    simp only [hr2, if_true]
    unfold retryLoop
    rw [he3]
    simp only [hr3, if_true]
    unfold retryLoop
    rw [he4]
  · intro e he hnr
    unfold run_sdk retryLoop
    rw [he]
    simp [hnr]

/-- Witness for C1: a call always failing with HTTP 429 is attempted 5
times and re-raises the 429 error; a call failing with HTTP 404 is
attempted once and the 404 propagates. -/
theorem run_sdk_retry_policy_witness :
    run_sdk (fun _ => (.error (.http 429 7) : Except PyError Nat)) = (.error (.http 429 7), 5)
    ∧ run_sdk (fun _ => (.error (.http 404 3) : Except PyError Nat)) = (.error (.http 404 3), 1) := by
  constructor
  · obtain ⟨e, he, -, hrun⟩ :=
      (run_sdk_retry_policy (fun _ => (.error (.http 429 7) : Except PyError Nat))).1
        (by intro k _; rfl)
    have : e = PyError.http 429 7 := by
      have := he.symm
      simpa using this
    rw [this] at hrun
    exact hrun
  · exact (run_sdk_retry_policy (fun _ => (.error (.http 404 3) : Except PyError Nat))).2
      (.http 404 3) rfl rfl

/-! ## Fuzzy matcher (`planecli/utils/fuzzy.py`) -/

/-- Python `str.lower()` (modelled on the ASCII range; the queries and
names the claims are about are ASCII). -/
def pyLower (s : String) : String := ⟨s.data.map Char.toLower⟩

/-- Python `str.upper()` (modelled on the ASCII range). -/
def pyUpper (s : String) : String := ⟨s.data.map Char.toUpper⟩

/-- A fuzzy match result (`FuzzyMatch` dataclass): the matched item, its
score (the library's float scores are modelled as exact rationals) and the
display string that was compared. -/
structure FuzzyMatch (α : Type) where
  item : α
  score : ℚ
  matched_value : String
deriving DecidableEq, Repr

/-- The score the loop computes for one item:
`fuzz.token_sort_ratio(query.lower(), key(item).lower())`.
The external rapidfuzz scorer is the abstract parameter `sf`;
the lower-casing is the code's own. -/
def scoreOf (sf : String → String → ℚ) (query : String) (key : α → String) (x : α) : ℚ :=
  sf (pyLower query) (pyLower (key x))

/-- The replacement test in `find_best_match`'s loop:
`best is None or score > best.score`. -/
def beatsBest (score : ℚ) : Option (FuzzyMatch α) → Bool
  | none => true
  | some b => b.score < score

/-- The accumulator loop of `find_best_match`. -/
def fbmGo (query : String) (key : α → String) (sf : String → String → ℚ)
    (threshold : ℚ) : Option (FuzzyMatch α) → List α → Option (FuzzyMatch α)
  | best, [] => best
  | best, item :: rest =>
    if threshold ≤ scoreOf sf query key item ∧ beatsBest (scoreOf sf query key item) best then
      fbmGo query key sf threshold (some ⟨item, scoreOf sf query key item, key item⟩) rest
    else
      fbmGo query key sf threshold best rest

/-- `find_best_match` from `fuzzy.py`: scans the items, keeping the first
item of maximal score among those at or above the threshold
(replacement only on strictly greater score). -/
def find_best_match (query : String) (items : List α) (key : α → String)
    (sf : String → String → ℚ) (threshold : ℚ) : Option (FuzzyMatch α) :=
  if items.isEmpty then none
  else fbmGo query key sf threshold none items

theorem fbmGo_spec (query : String) (key : α → String) (sf : String → String → ℚ)
    (t : ℚ) (l : List α) :
    ∀ (best : Option (FuzzyMatch α)),
      (∀ b, best = some b → t ≤ b.score) →
      (fbmGo query key sf t best l = none →
        best = none ∧ ∀ x ∈ l, scoreOf sf query key x < t)
      ∧ (∀ m, fbmGo query key sf t best l = some m →
          t ≤ m.score ∧
          ((best = some m ∧ ∀ x ∈ l, scoreOf sf query key x ≤ m.score) ∨
           (∃ l₁ x l₂, l = l₁ ++ x :: l₂ ∧
             m = ⟨x, scoreOf sf query key x, key x⟩ ∧
             (∀ b, best = some b → b.score < m.score) ∧
             (∀ y ∈ l₁, scoreOf sf query key y < m.score) ∧
             (∀ y ∈ l₂, scoreOf sf query key y ≤ m.score)))) := by
  induction l with
  | nil =>
    intro best hbest
    refine ⟨fun h => ⟨h, by simp⟩, fun m hm => ?_⟩
    have hb : best = some m := hm
    exact ⟨hbest m hb, Or.inl ⟨hb, by simp⟩⟩
  | cons item rest ih =>
    intro best hbest
    by_cases hc : t ≤ scoreOf sf query key item
        ∧ beatsBest (scoreOf sf query key item) best = true
    · have hunf : fbmGo query key sf t best (item :: rest)
          = fbmGo query key sf t
              (some ⟨item, scoreOf sf query key item, key item⟩) rest := by
        simp only [fbmGo, if_pos hc]
      have ihres := ih (some ⟨item, scoreOf sf query key item, key item⟩)
        (fun b hb => by cases hb; exact hc.1)
      constructor
      · intro h
        rw [hunf] at h
        exact absurd (ihres.1 h).1 (by simp)
      · intro m hm
        rw [hunf] at hm
        obtain ⟨hts, hdisj⟩ := ihres.2 m hm
        refine ⟨hts, Or.inr ?_⟩
        rcases hdisj with ⟨heq, hall⟩ | ⟨l₁', x', l₂', hl, hm', hbb, h1, h2⟩
        · have hme : m = ⟨item, scoreOf sf query key item, key item⟩ := by
            cases heq; rfl
          refine ⟨[], item, rest, rfl, hme, ?_, by simp, hall⟩
          intro b hb
          have := hc.2
          rw [hb] at this
          simp only [beatsBest, decide_eq_true_eq] at this
          rw [hme]
          exact this
        · have hlt : (⟨item, scoreOf sf query key item, key item⟩ : FuzzyMatch α).score
              < m.score := hbb _ rfl
          refine ⟨item :: l₁', x', l₂', by rw [hl]; rfl, hm', ?_, ?_, h2⟩
          · intro b hb
            have := hc.2
            rw [hb] at this
            simp only [beatsBest, decide_eq_true_eq] at this
            exact lt_trans this hlt
          · intro y hy
            rcases List.mem_cons.1 hy with rfl | hy'
            · exact hlt
            · exact h1 y hy'
    · have hunf : fbmGo query key sf t best (item :: rest)
          = fbmGo query key sf t best rest := by
        simp only [fbmGo, if_neg hc]
      have ihres := ih best hbest
      rw [not_and_or] at hc
      constructor
      · intro h
        rw [hunf] at h
        obtain ⟨hbn, hall⟩ := ihres.1 h
        refine ⟨hbn, ?_⟩
        intro x hx
        rcases List.mem_cons.1 hx with rfl | hx'
        · rcases hc with hlt | hbf
          · exact lt_of_not_le hlt
          · rw [hbn] at hbf
            simp [beatsBest] at hbf
        · exact hall x hx'
      · intro m hm
        rw [hunf] at hm
        obtain ⟨hts, hdisj⟩ := ihres.2 m hm
        refine ⟨hts, ?_⟩
        rcases hdisj with ⟨hbm, hall⟩ | ⟨l₁', x', l₂', hl, hm', hbb, h1, h2⟩
        · refine Or.inl ⟨hbm, ?_⟩
          intro x hx
          rcases List.mem_cons.1 hx with rfl | hx'
          · rcases hc with hlt | hbf
            · exact le_trans (le_of_lt (lt_of_not_le hlt)) hts
            · rw [hbm] at hbf
              simp only [beatsBest, decide_eq_true_eq] at hbf
              exact le_of_not_lt hbf
          · exact hall x hx'
        · refine Or.inr ⟨item :: l₁', x', l₂', by rw [hl]; rfl, hm', hbb, ?_, h2⟩
          intro y hy
          rcases List.mem_cons.1 hy with rfl | hy'
          · rcases hc with hlt | hbf
            · exact lt_of_lt_of_le (lt_of_not_le hlt) hts
            · cases hb : best with
              | none => rw [hb] at hbf; simp [beatsBest] at hbf
              | some b =>
                rw [hb] at hbf
                simp only [beatsBest, decide_eq_true_eq] at hbf
                exact lt_of_le_of_lt (le_of_not_lt hbf) (hbb b hb)
          · exact h1 y hy'

/-- C2: `find_best_match` returns `none` exactly when no candidate scores
at or above the threshold (in particular, never an error and `none` on an
empty list); when it returns a match, that match scores at least the
threshold, is maximal among all candidates, and ties are broken in favor
of the first-encountered candidate (everything before it scores strictly
less, everything after at most equal). -/
theorem find_best_match_correct (query : String) (items : List α) (key : α → String)
    (sf : String → String → ℚ) (t : ℚ) :
    (find_best_match query items key sf t = none ↔
       ∀ x ∈ items, scoreOf sf query key x < t)
    ∧ (∀ m, find_best_match query items key sf t = some m →
        t ≤ m.score ∧
        ∃ l₁ x l₂, items = l₁ ++ x :: l₂ ∧
          m = ⟨x, scoreOf sf query key x, key x⟩ ∧
          (∀ y ∈ l₁, scoreOf sf query key y < m.score) ∧
          (∀ y ∈ l₂, scoreOf sf query key y ≤ m.score)) := by
  by_cases hemp : items.isEmpty
  · rw [List.isEmpty_iff] at hemp
    subst hemp
    constructor
    · simp [find_best_match]
    · intro m hm
      simp [find_best_match] at hm
  · have hunf : find_best_match query items key sf t
        = fbmGo query key sf t none items := by
      simp only [find_best_match, if_neg hemp]
    have hspec := fbmGo_spec query key sf t items none (fun b hb => by cases hb)
    have hsome : ∀ m, find_best_match query items key sf t = some m →
        t ≤ m.score ∧
        ∃ l₁ x l₂, items = l₁ ++ x :: l₂ ∧
          m = ⟨x, scoreOf sf query key x, key x⟩ ∧
          (∀ y ∈ l₁, scoreOf sf query key y < m.score) ∧
          (∀ y ∈ l₂, scoreOf sf query key y ≤ m.score) := by
      intro m hm
      rw [hunf] at hm
      obtain ⟨hts, hdisj⟩ := hspec.2 m hm
      rcases hdisj with ⟨hbm, -⟩ | ⟨l₁, x, l₂, hl, hm', -, h1, h2⟩
      · cases hbm
      · exact ⟨hts, l₁, x, l₂, hl, hm', h1, h2⟩
    refine ⟨⟨fun h => (hspec.1 (hunf ▸ h)).2, fun hall => ?_⟩, hsome⟩
    cases hres : find_best_match query items key sf t with
    | none => rfl
    | some m =>
      obtain ⟨hts, l₁, x, l₂, hl, hm', -, -⟩ := hsome m hres
      have hx : x ∈ items := by rw [hl]; simp
      have := hall x hx
      rw [hm'] at hts
      exact absurd hts (not_le.2 this)

/-- Sample scorer used by the witness below. -/
def sampleScore (a b : String) : ℚ := if a = b then 100 else 50

/-- Witness for C2 at a concrete input: with three candidates and one
exact hit, `find_best_match` returns the hit and the theorem's
conclusions hold for it. -/
theorem find_best_match_correct_witness :
    find_best_match "beta" ["alpha", "beta", "gamma"] id sampleScore 60
      = some ⟨"beta", 100, "beta"⟩
    ∧ ((60 : ℚ) ≤ (⟨"beta", 100, "beta"⟩ : FuzzyMatch String).score ∧
        ∃ l₁ x l₂, ["alpha", "beta", "gamma"] = l₁ ++ x :: l₂ ∧
          (⟨"beta", 100, "beta"⟩ : FuzzyMatch String)
            = ⟨x, scoreOf sampleScore "beta" id x, id x⟩ ∧
          (∀ y ∈ l₁, scoreOf sampleScore "beta" id y
            < (⟨"beta", 100, "beta"⟩ : FuzzyMatch String).score) ∧
          (∀ y ∈ l₂, scoreOf sampleScore "beta" id y
            ≤ (⟨"beta", 100, "beta"⟩ : FuzzyMatch String).score)) := by
  have h : find_best_match "beta" ["alpha", "beta", "gamma"] id sampleScore 60
      = some ⟨"beta", 100, "beta"⟩ := by decide
  exact ⟨h,
    (find_best_match_correct "beta" ["alpha", "beta", "gamma"] id sampleScore 60).2
      ⟨"beta", 100, "beta"⟩ h⟩

/-! ## Disk cache (`planecli/cache.py`) -/

/-- An item returned by a fetch: either a typed Pydantic model (which has
`model_dump`) or already a plain dict
(`item.model_dump() if hasattr(item, "model_dump") else item`);
`δ` is the plain-record payload. -/
inductive ApiItem (δ : Type) where
  | model (d : δ)
  | plain (d : δ)
deriving DecidableEq, Repr

/-- The per-item conversion step of `_cached_list`. -/
def dumpItem : ApiItem δ → δ
  | .model d => d
  | .plain d => d

/-- The cashews backend's observable state: bindings of cache keys to
stored (value, expire) pairs.  `set` prepends a binding and `get` reads
the first one, which models overwrite semantics. -/
abbrev Store (δ : Type) := List (String × (List δ × String))

/-- `cache.get(key)` on the backend state. -/
def lookupStore (key : String) : Store δ → Option (List δ)
  | [] => none
  | (k, v) :: rest => if k = key then some v.1 else lookupStore key rest

/-- `cache.set(key, data, expire=ttl)` on the backend state. -/
def setStore (key : String) (v : List δ) (ttl : String) (st : Store δ) : Store δ :=
  (key, (v, ttl)) :: st

/-- `_cached_list` from `cache.py`, with effects explicit: `noCache` is
the module flag set by `set_no_cache`; `readErr` / `writeErr` say whether
the backend's `get` / `set` raise (such exceptions are caught and only
logged); `fetch` is the outcome of `fetch_fn()`, whose errors are not
caught; `st` is the backend state.  On success, returns the data handed
to the caller, the new backend state, and whether `fetch_fn` ran. -/
def _cached_list (noCache readErr writeErr : Bool) (key ttl : String)
    (fetch : Except PyError (List (ApiItem δ))) (st : Store δ) :
    Except PyError (List δ × Store δ × Bool) :=
  match (if noCache then none else if readErr then none else lookupStore key st) with
  | some v => .ok (v, st, false)
  | none =>
    match fetch with
    | .error e => .error e
    | .ok results =>
      .ok (results.map dumpItem,
           if writeErr then st else setStore key (results.map dumpItem) ttl st,
           true)

/-- C3: cache I/O failures never surface from `_cached_list`: a failing
cache read falls back to calling `fetch_fn` and the caller receives the
freshly fetched data; a failing cache write after a successful fetch
still returns the fetched data (with the store unchanged); and as long as
the fetch succeeds the call succeeds, whatever the cache backend does. -/
theorem cached_list_cache_errors_harmless (noCache readErr writeErr : Bool)
    (key ttl : String) (fetch : Except PyError (List (ApiItem δ))) (st : Store δ)
    (results : List (ApiItem δ)) (hf : fetch = .ok results) :
    (readErr = true → noCache = false → ∃ st',
      _cached_list noCache readErr writeErr key ttl fetch st
        = .ok (results.map dumpItem, st', true))
    ∧ (writeErr = true →
        (noCache = true ∨ readErr = true ∨ lookupStore key st = none) →
        _cached_list noCache readErr writeErr key ttl fetch st
          = .ok (results.map dumpItem, st, true))
    ∧ (∃ out, _cached_list noCache readErr writeErr key ttl fetch st = .ok out) := by
  subst hf
  refine ⟨?_, ?_, ?_⟩
  · rintro rfl rfl
    exact ⟨_, rfl⟩
  · rintro rfl hmiss
    rcases hmiss with rfl | rfl | hl
    · rfl
    · cases noCache <;> rfl
    · cases noCache <;> cases readErr <;> simp [_cached_list, hl]
  · cases noCache with
    | true => exact ⟨_, rfl⟩
    | false =>
      cases readErr with
      | true => exact ⟨_, rfl⟩
      | false =>
        cases hl : lookupStore key st with
        | some v => exact ⟨(v, st, false), by simp [_cached_list, hl]⟩
        | none =>
          exact ⟨(results.map dumpItem,
              (if writeErr then st else setStore key (results.map dumpItem) ttl st),
              true), by simp [_cached_list, hl]⟩

/-- Witness for C3: with both the read and the write raising, the fetched
records (one typed, one plain) are still returned, converted to plain
data. -/
theorem cached_list_cache_errors_harmless_witness :
    List.map dumpItem [ApiItem.model 1, ApiItem.plain 2] = [1, 2]
    ∧ ∃ st', _cached_list false true true "k" "5m"
        (.ok [ApiItem.model 1, ApiItem.plain 2]) ([] : Store Nat)
        = .ok ([1, 2], st', true) := by
  refine ⟨rfl, ?_⟩
  have h := (cached_list_cache_errors_harmless false true true "k" "5m"
      (.ok [ApiItem.model 1, ApiItem.plain 2]) ([] : Store Nat)
      [ApiItem.model 1, ApiItem.plain 2] rfl).1 rfl rfl
  simpa using h

/-- C5: with the no-cache flag active, `_cached_list` skips the read and
invokes `fetch_fn` (even when a value is cached), but still writes the
fetched result under the same key and TTL; after the flag is cleared, a
subsequent call with the same key is a cache hit returning that same
data, without invoking its fetch function (whatever that second fetch
function would have done). -/
theorem no_cache_skips_read_still_writes (readErr w₂ : Bool) (key ttl : String)
    (results : List (ApiItem δ)) (st : Store δ) :
    _cached_list true readErr false key ttl (.ok results) st
      = .ok (results.map dumpItem,
             setStore key (results.map dumpItem) ttl st, true)
    ∧ ∀ (fetch₂ : Except PyError (List (ApiItem δ))),
        _cached_list false false w₂ key ttl fetch₂
            (setStore key (results.map dumpItem) ttl st)
          = .ok (results.map dumpItem,
                 setStore key (results.map dumpItem) ttl st, false) := by
  refine ⟨rfl, fun fetch₂ => ?_⟩
  simp [_cached_list, lookupStore, setStore]

/-- Witness for C5 at a concrete input: the first (no-cache) call fetches
and writes; the second call hits the cache even though its fetch function
would fail. -/
theorem no_cache_skips_read_still_writes_witness :
    _cached_list true false false "k" "2m" (.ok [ApiItem.plain 9]) ([] : Store Nat)
      = .ok ([9], [("k", ([9], "2m"))], true)
    ∧ _cached_list false false false "k" "2m"
        (.error (.other 0)) ([("k", ([9], "2m"))] : Store Nat)
      = .ok ([9], [("k", ([9], "2m"))], false) := by
  have h := no_cache_skips_read_still_writes (δ := Nat) false false "k" "2m"
    [ApiItem.plain 9] []
  exact ⟨h.1, h.2 (.error (.other 0))⟩

/-! ## Cache keys (`_cache_key` in `cache.py`) -/

/-- `_cache_key` from `cache.py`:
`f"{url_hash}:{resource}:{workspace}:{project_id}"` when `project_id` is
truthy, else `f"{url_hash}:{resource}:{workspace}"`.  `url_hash` is the
already-computed `sha256(base_url).hexdigest()[:12]`; Python truthiness
makes both `None` and `""` omit the project part. -/
def _cache_key (url_hash resource workspace : String)
    (project_id : Option String) : String :=
  match project_id with
  | some pid =>
    if pid = "" then url_hash ++ ":" ++ resource ++ ":" ++ workspace
    else url_hash ++ ":" ++ resource ++ ":" ++ workspace ++ ":" ++ pid
  | none => url_hash ++ ":" ++ resource ++ ":" ++ workspace

/-- No `:` occurs in the string. -/
abbrev colonFree (s : String) : Prop := ':' ∉ s.data

/-- The project id does not abuse Python truthiness and is colon-free. -/
def goodPid : Option String → Prop
  | none => True
  | some p => p ≠ "" ∧ colonFree p

theorem colon_split {b d : List Char} : ∀ {a c : List Char}, ':' ∉ a → ':' ∉ c →
    a ++ ':' :: b = c ++ ':' :: d → a = c ∧ b = d := by
  intro a
  induction a with
  | nil =>
    intro c _ hc h
    cases c with
    | nil =>
      refine ⟨rfl, ?_⟩
      injection h
    | cons y c' =>
      injection h with h1 h2
      exact absurd (by rw [← h1]; exact List.mem_cons_self _ _) hc
  | cons x a' ih =>
    intro c ha hc h
    cases c with
    | nil =>
      injection h with h1 h2
      exact absurd (by rw [h1]; exact List.mem_cons_self _ _) ha
    | cons y c' =>
      injection h with h1 h2
      have ha' : ':' ∉ a' := fun hm => ha (List.mem_cons_of_mem _ hm)
      have hc' : ':' ∉ c' := fun hm => hc (List.mem_cons_of_mem _ hm)
      obtain ⟨hac, hbd⟩ := ih ha' hc' h2
      exact ⟨by rw [h1, hac], hbd⟩

theorem lookupStore_set_ne {k k' : String} (h : k ≠ k') (v : List δ)
    (ttl : String) (st : Store δ) :
    lookupStore k' (setStore k v ttl st) = lookupStore k' st := by
  simp [lookupStore, setStore, h]

/-- Counterexample to C6 as stated: two distinct
`(base_url_hash, resource, workspace, project_id)` tuples can produce the
same cache key — a workspace slug containing `:` aliases another tuple's
(workspace, project) pair — so a write under the first tuple is read back
under the second. -/
theorem cache_key_not_injective :
    (("aabbccddeeff", "states", "acme:p1", (none : Option String))
      ≠ ("aabbccddeeff", "states", "acme", some "p1"))
    ∧ _cache_key "aabbccddeeff" "states" "acme:p1" none
        = _cache_key "aabbccddeeff" "states" "acme" (some "p1")
    ∧ lookupStore (_cache_key "aabbccddeeff" "states" "acme" (some "p1"))
        (setStore (_cache_key "aabbccddeeff" "states" "acme:p1" none) [7] "10m"
          ([] : Store Nat))
      = some [7] := by
  refine ⟨by decide, by decide, by decide⟩

/-- C6 amended: distinct tuples yield distinct cache keys — and hence a
write under one tuple leaves every other tuple's entry unchanged —
provided each component is colon-free and the project id, when present,
is nonempty (the counterexample `cache_key_not_injective` needs a `:`
inside a component; the empty project id is conflated with no project id
by Python truthiness). -/
theorem cache_key_isolation (δ : Type) (h₁ r₁ w₁ : String) (p₁ : Option String)
    (h₂ r₂ w₂ : String) (p₂ : Option String)
    (hh₁ : colonFree h₁) (hr₁ : colonFree r₁) (hw₁ : colonFree w₁) (hp₁ : goodPid p₁)
    (hh₂ : colonFree h₂) (hr₂ : colonFree r₂) (hw₂ : colonFree w₂) (hp₂ : goodPid p₂)
    (hne : (h₁, r₁, w₁, p₁) ≠ (h₂, r₂, w₂, p₂)) :
    _cache_key h₁ r₁ w₁ p₁ ≠ _cache_key h₂ r₂ w₂ p₂
    ∧ ∀ (v : List δ) (ttl : String) (st : Store δ),
        lookupStore (_cache_key h₂ r₂ w₂ p₂)
          (setStore (_cache_key h₁ r₁ w₁ p₁) v ttl st)
        = lookupStore (_cache_key h₂ r₂ w₂ p₂) st := by
  have hkey : _cache_key h₁ r₁ w₁ p₁ ≠ _cache_key h₂ r₂ w₂ p₂ := by
    intro heq
    have hdata := congrArg String.data heq
    cases p₁ with
    | none =>
      cases p₂ with
      | none =>
        have hd : h₁.data ++ ':' :: (r₁.data ++ ':' :: w₁.data)
            = h₂.data ++ ':' :: (r₂.data ++ ':' :: w₂.data) := by
          simpa [_cache_key, String.data_append, List.append_assoc] using hdata
        obtain ⟨e1, hrest⟩ := colon_split hh₁ hh₂ hd
        obtain ⟨e2, e3⟩ := colon_split hr₁ hr₂ hrest
        exact hne (by rw [String.ext e1, String.ext e2, String.ext e3])
      | some q =>
        obtain ⟨hq, -⟩ := hp₂
        have hd : h₁.data ++ ':' :: (r₁.data ++ ':' :: w₁.data)
            = h₂.data ++ ':' :: (r₂.data ++ ':' :: (w₂.data ++ ':' :: q.data)) := by
          simpa [_cache_key, hq, String.data_append, List.append_assoc] using hdata
        obtain ⟨-, hrest⟩ := colon_split hh₁ hh₂ hd
        obtain ⟨-, h3⟩ := colon_split hr₁ hr₂ hrest
        exact hw₁ (by rw [h3]; exact List.mem_append_right _ (List.mem_cons_self _ _))
    | some p =>
      obtain ⟨hp, hpf⟩ := hp₁
      cases p₂ with
      | none =>
        have hd : h₁.data ++ ':' :: (r₁.data ++ ':' :: (w₁.data ++ ':' :: p.data))
            = h₂.data ++ ':' :: (r₂.data ++ ':' :: w₂.data) := by
          simpa [_cache_key, hp, String.data_append, List.append_assoc] using hdata
        obtain ⟨-, hrest⟩ := colon_split hh₁ hh₂ hd
        obtain ⟨-, h3⟩ := colon_split hr₁ hr₂ hrest
        exact hw₂ (by rw [← h3]; exact List.mem_append_right _ (List.mem_cons_self _ _))
      | some q =>
        obtain ⟨hq, -⟩ := hp₂
        have hd : h₁.data ++ ':' :: (r₁.data ++ ':' :: (w₁.data ++ ':' :: p.data))
            = h₂.data ++ ':' :: (r₂.data ++ ':' :: (w₂.data ++ ':' :: q.data)) := by
          simpa [_cache_key, hp, hq, String.data_append, List.append_assoc] using hdata
        obtain ⟨e1, hrest⟩ := colon_split hh₁ hh₂ hd
        obtain ⟨e2, hrest2⟩ := colon_split hr₁ hr₂ hrest
        obtain ⟨e3, e4⟩ := colon_split hw₁ hw₂ hrest2
        exact hne (by rw [String.ext e1, String.ext e2, String.ext e3, String.ext e4])
  exact ⟨hkey, fun v ttl st => lookupStore_set_ne hkey v ttl st⟩

/-- Witness for the amended C6: two projects in the same workspace get
different keys and a write to one leaves the other's entry untouched. -/
theorem cache_key_isolation_witness :
    _cache_key "aabbccddeeff" "work_items" "acme" (some "p1")
      ≠ _cache_key "aabbccddeeff" "work_items" "acme" (some "p2")
    ∧ lookupStore (_cache_key "aabbccddeeff" "work_items" "acme" (some "p2"))
        (setStore (_cache_key "aabbccddeeff" "work_items" "acme" (some "p1"))
          [3] "2m" ([] : Store Nat))
      = lookupStore (_cache_key "aabbccddeeff" "work_items" "acme" (some "p2"))
        ([] : Store Nat) := by
  have h := cache_key_isolation Nat "aabbccddeeff" "work_items" "acme" (some "p1")
      "aabbccddeeff" "work_items" "acme" (some "p2")
      (by decide) (by decide) (by decide) ⟨by decide, by decide⟩
      (by decide) (by decide) (by decide) ⟨by decide, by decide⟩
      (by decide)
  exact ⟨h.1, h.2 [3] "2m" []⟩

/-! ## Paginated fetcher (`_fetch_page` / `_paginate_all` in `resolve.py`) -/

/-- One page of a paginated SDK response:
`{results, next_page_results, next_cursor}`. -/
structure Page (δ : Type) where
  results : List δ
  next_page_results : Bool
  next_cursor : Option String
deriving DecidableEq, Repr

/-- `_fetch_page` from `resolve.py`: a single page fetch through the same
tenacity policy as `run_sdk` (up to 5 attempts, retry only retryable
errors, re-raise the last error).  `f k` is the outcome of re-invoking
`list_fn` for this page on attempt `k`; the attempt count made is
returned alongside. -/
def _fetch_page (f : Nat → Except PyError (Page δ)) : Except PyError (Page δ) × Nat :=
  retryLoop f 4 0

/-- `_paginate_all` from `resolve.py`: drains the cursor chain starting at
cursor `none`, appending each page's `results`, stopping at the first page
whose `next_page_results` is false, advancing with `next_cursor`.
The oracle gives, per cursor and per attempt, the outcome of invoking
`list_fn`; `fuel` bounds the number of pages (the Python loop is
unbounded), with `none` meaning fuel ran out.  On success the result also
carries, per page in order, how many times `list_fn` was invoked for that
page. -/
def _paginate_all (oracle : Option String → Nat → Except PyError (Page δ)) :
    Nat → Option String → Option (Except PyError (List δ × List Nat))
  | 0, _ => none
  | fuel + 1, cursor =>
    match _fetch_page (oracle cursor) with
    | (.error e, _) => some (.error e)
    | (.ok page, n) =>
      if page.next_page_results then
        match _paginate_all oracle fuel page.next_cursor with
        | none => none
        | some (.error e) => some (.error e)
        | some (.ok (res, counts)) => some (.ok (page.results ++ res, n :: counts))
      else
        some (.ok (page.results, [n]))

theorem retryLoop_ok (f : Nat → Except PyError α) (v : α) :
    ∀ (m i n : Nat), m ≤ n →
      (∀ j, j < m → errRetryable (f (i + j)) = true) →
      f (i + m) = .ok v →
      retryLoop f n i = (.ok v, i + m + 1) := by
  intro m
  induction m with
  | zero =>
    intro i n _ _ hok
    simp only [Nat.add_zero] at hok
    cases n with
    | zero => simp [retryLoop, hok]
    | succ n' => simp [retryLoop, hok]
  | succ m' ih =>
    intro i n hmn herr hok
    obtain ⟨n', rfl⟩ : ∃ n', n = n' + 1 := ⟨n - 1, by omega⟩
    have h0 : errRetryable (f i) = true := by
      have := herr 0 (by omega)
      simpa using this
    obtain ⟨e, he, hr⟩ : ∃ e, f i = .error e ∧ _is_retryable e = true := by
      cases hfi : f i with
      | ok w => rw [hfi] at h0; simp [errRetryable] at h0
      | error e => exact ⟨e, rfl, by rw [hfi] at h0; simpa [errRetryable] using h0⟩
    have hstep : retryLoop f (n' + 1) i = retryLoop f n' (i + 1) := by
      simp [retryLoop, he, hr]
    have herr' : ∀ j, j < m' → errRetryable (f (i + 1 + j)) = true := by
      intro j hj
      have h := herr (j + 1) (by omega)
      have e2 : i + (j + 1) = i + 1 + j := by omega
      rwa [e2] at h
    have hok' : f (i + 1 + m') = .ok v := by
      have e2 : i + (m' + 1) = i + 1 + m' := by omega
      rwa [e2] at hok
    rw [hstep, ih (i + 1) n' (by omega) herr' hok']
    exact congrArg _ (by omega)

theorem retryLoop_err0 (f : Nat → Except PyError α) (e : PyError) (i n : Nat)
    (hnr : _is_retryable e = false) (h : f i = .error e) :
    retryLoop f n i = (.error e, i + 1) := by
  cases n <;> simp [retryLoop, h, hnr]

/-- Whether an outcome is success with exactly the page `p`. -/
def isOkPage [DecidableEq δ] (r : Except PyError (Page δ)) (p : Page δ) : Bool :=
  match r with
  | .ok q => q = p
  | .error _ => false

theorem isOkPage_eq [DecidableEq δ] {r : Except PyError (Page δ)} {p : Page δ}
    (h : isOkPage r p = true) : r = .ok p := by
  cases r with
  | ok q => simp only [isOkPage, decide_eq_true_eq] at h; rw [h]
  | error e => simp [isOkPage] at h

/-- The oracle lets the page at `cursor` succeed with page `p` after `k`
transient failures (so `list_fn` runs `k + 1` times for this page). -/
def fetchScript [DecidableEq δ] (oracle : Option String → Nat → Except PyError (Page δ))
    (cursor : Option String) (k : Nat) (p : Page δ) : Bool :=
  decide (k < 5) && (List.range k).all (fun j => errRetryable (oracle cursor j))
    && isOkPage (oracle cursor k) p

/-- A full cursor chain: every page's fetch succeeds per `fetchScript`,
every page but the last reports a further page, the last does not, and
cursors advance by `next_cursor`. -/
def chainScript [DecidableEq δ] (oracle : Option String → Nat → Except PyError (Page δ)) :
    Option String → List (Nat × Page δ) → Bool
  | _, [] => false
  | cursor, (k, p) :: s =>
    fetchScript oracle cursor k p &&
      (match s with
       | [] => !p.next_page_results
       | _ :: _ => p.next_page_results && chainScript oracle p.next_cursor s)

/-- A successful chain prefix (every page reports a further page),
starting at `c` and leaving the cursor at `c'`. -/
def prefixChain [DecidableEq δ] (oracle : Option String → Nat → Except PyError (Page δ)) :
    Option String → List (Nat × Page δ) → Option String → Bool
  | c, [], c' => decide (c = c')
  | c, (k, p) :: s, c' =>
    fetchScript oracle c k p && p.next_page_results && prefixChain oracle p.next_cursor s c'

theorem fetch_page_of_script [DecidableEq δ]
    (oracle : Option String → Nat → Except PyError (Page δ))
    (cursor : Option String) (k : Nat) (p : Page δ)
    (h : fetchScript oracle cursor k p = true) :
    _fetch_page (oracle cursor) = (.ok p, k + 1) := by
  simp only [fetchScript, Bool.and_eq_true, decide_eq_true_eq, List.all_eq_true,
    List.mem_range] at h
  obtain ⟨⟨hk, herr⟩, hok'⟩ := h
  have hok := isOkPage_eq hok'
  have := retryLoop_ok (oracle cursor) p k 0 4 (by omega)
    (fun j hj => by simpa using herr j hj) (by simpa using hok)
  simpa [_fetch_page] using this

/-- C4: `_paginate_all` returns the concatenation of every page's results
in page order, terminating on the first page with `next_page_results`
false and otherwise advancing with that page's `next_cursor`; a transient
failure on a page re-invokes `list_fn` for that page alone — the returned
per-page invocation counts are exactly one plus each page's own
transient-failure count, unaffected by the other pages; and a
non-retryable failure at any point in the chain makes the whole call fail
with exactly that error, returning no partial result. -/
theorem paginate_all_correct [DecidableEq δ]
    (oracle : Option String → Nat → Except PyError (Page δ)) :
    (∀ (script : List (Nat × Page δ)) (cursor : Option String) (fuel : Nat),
      chainScript oracle cursor script = true → script.length ≤ fuel →
      _paginate_all oracle fuel cursor
        = some (.ok ((script.map (fun s => s.2.results)).flatten,
                     script.map (fun s => s.1 + 1))))
    ∧ (∀ (pre : List (Nat × Page δ)) (c c' : Option String) (e : PyError) (fuel : Nat),
      prefixChain oracle c pre c' = true →
      oracle c' 0 = .error e → _is_retryable e = false →
      pre.length + 1 ≤ fuel →
      _paginate_all oracle fuel c = some (.error e)) := by
  constructor
  · intro script
    induction script with
    | nil => intro cursor fuel h _; simp [chainScript] at h
    | cons hd tl ih =>
      intro cursor fuel h hfuel
      obtain ⟨fuel', rfl⟩ : ∃ fuel', fuel = fuel' + 1 :=
        ⟨fuel - 1, by simp at hfuel; omega⟩
      obtain ⟨k, p⟩ := hd
      cases tl with
      | nil =>
        simp only [chainScript, Bool.and_eq_true, Bool.not_eq_true'] at h
        obtain ⟨hf, hlast⟩ := h
        simp [_paginate_all, fetch_page_of_script oracle cursor k p hf, hlast]
      | cons hd' tl' =>
        rw [show chainScript oracle cursor ((k, p) :: hd' :: tl')
            = (fetchScript oracle cursor k p &&
               (p.next_page_results && chainScript oracle p.next_cursor (hd' :: tl')))
            from rfl] at h
        simp only [Bool.and_eq_true] at h
        obtain ⟨hf, hnext, hchain⟩ := h
        have hrec := ih p.next_cursor fuel' hchain (by simp at hfuel ⊢; omega)
        simp [_paginate_all, fetch_page_of_script oracle cursor k p hf, hnext, hrec]
  · intro pre
    induction pre with
    | nil =>
      intro c c' e fuel hpre he hnr hfuel
      obtain ⟨fuel', rfl⟩ : ∃ fuel', fuel = fuel' + 1 := ⟨fuel - 1, by omega⟩
      simp only [prefixChain, decide_eq_true_eq] at hpre
      subst hpre
      have : _fetch_page (oracle c) = (.error e, 1) := by
        simpa [_fetch_page] using retryLoop_err0 (oracle c) e 0 4 hnr he
      simp [_paginate_all, this]
    | cons hd tl ih =>
      intro c c' e fuel hpre he hnr hfuel
      obtain ⟨fuel', rfl⟩ : ∃ fuel', fuel = fuel' + 1 := ⟨fuel - 1, by omega⟩
      obtain ⟨k, p⟩ := hd
      simp only [prefixChain, Bool.and_eq_true] at hpre
      obtain ⟨⟨hf, hnext⟩, hchain⟩ := hpre
      have hrec := ih p.next_cursor c' e fuel' hchain he hnr (by simp at hfuel ⊢; omega)
      simp [_paginate_all, fetch_page_of_script oracle c k p hf, hnext, hrec]

/-- A concrete three-page oracle for the C4 witness: page 1 succeeds at
once, page 2 fails once with a 503 then succeeds, page 3 succeeds at
once. -/
def c4Oracle : Option String → Nat → Except PyError (Page Nat)
  | none, _ => .ok ⟨[1, 2], true, some "c1"⟩
  | some "c1", 0 => .error (.http 503 0)
  | some "c1", _ => .ok ⟨[3], true, some "c2"⟩
  | some "c2", _ => .ok ⟨[4, 5], false, none⟩
  | _, _ => .error (.other 0)

/-- Witness for C4: with one transient failure on page 2 of 3,
`_paginate_all` still returns all three pages' results concatenated in
order, invoking the page fetch once for pages 1 and 3 and twice for
page 2; and a non-retryable 404 in place of page 1 fails the whole call
with that error. -/
theorem paginate_all_correct_witness :
    chainScript c4Oracle none
        [(0, ⟨[1, 2], true, some "c1"⟩), (1, ⟨[3], true, some "c2"⟩),
         (0, ⟨[4, 5], false, none⟩)] = true
    ∧ _paginate_all c4Oracle 5 none = some (.ok ([1, 2, 3, 4, 5], [1, 2, 1]))
    ∧ _paginate_all (fun _ _ => (.error (.http 404 0) : Except PyError (Page Nat))) 5 none
        = some (.error (.http 404 0)) := by
  refine ⟨by decide, ?_, ?_⟩
  · have h := (paginate_all_correct c4Oracle).1
      [(0, ⟨[1, 2], true, some "c1"⟩), (1, ⟨[3], true, some "c2"⟩),
       (0, ⟨[4, 5], false, none⟩)] none 5 (by decide) (by decide)
    simpa using h
  · exact (paginate_all_correct (fun _ _ => (.error (.http 404 0) : Except PyError (Page Nat)))).2
      [] none none (.http 404 0) 5 (by decide) rfl rfl (by decide)

/-! ## Resolver patterns (`UUID_PATTERN` / `ISSUE_ID_PATTERN` in `resolve.py`) -/

/-- The character class `[0-9a-f]` under `re.IGNORECASE`. -/
def isHexChar (c : Char) : Bool :=
  (decide ('0' ≤ c) && decide (c ≤ '9')) || (decide ('a' ≤ c) && decide (c ≤ 'f'))
    || (decide ('A' ≤ c) && decide (c ≤ 'F'))

/-- Consume exactly `n` hex digits, returning the remaining characters. -/
def hexRun : Nat → List Char → Option (List Char)
  | 0, rest => some rest
  | _ + 1, [] => none
  | n + 1, c :: rest => if isHexChar c then hexRun n rest else none

/-- Consume one expected character. -/
def expectChar (c : Char) : List Char → Option (List Char)
  | x :: rest => if x = c then some rest else none
  | [] => none

/-- Anchored match of
`[0-9a-f]{8}-[0-9a-f]{4}-[0-9a-f]{4}-[0-9a-f]{4}-[0-9a-f]{12}`
(case-insensitive) against the whole character list — the canonical
8-4-4-4-12 pattern that both `UUID_PATTERN` and the spec state. -/
def uuidCore (l : List Char) : Bool :=
  match (hexRun 8 l).bind (expectChar '-') |>.bind (hexRun 4) |>.bind (expectChar '-')
      |>.bind (hexRun 4) |>.bind (expectChar '-') |>.bind (hexRun 4)
      |>.bind (expectChar '-') |>.bind (hexRun 12) with
  | some [] => true
  | _ => false

/-- `_is_uuid` from `resolve.py`: `bool(UUID_PATTERN.match(value))`.
Python's `$` (without `re.MULTILINE`) matches at the end of the string
or just before one trailing newline, so a canonical UUID followed by a
single `'\n'` is also accepted. -/
def _is_uuid (s : String) : Bool :=
  uuidCore s.data ||
    (match s.data.getLast? with
     | some c => c = '\n' && uuidCore s.data.dropLast
     | none => false)

/-- The character class `[A-Z]` under `re.IGNORECASE`. -/
def isAsciiLetter (c : Char) : Bool :=
  (decide ('A' ≤ c) && decide (c ≤ 'Z')) || (decide ('a' ≤ c) && decide (c ≤ 'z'))

/-- The class `\d` (modelled on the ASCII range). -/
def isAsciiDigit (c : Char) : Bool := decide ('0' ≤ c) && decide (c ≤ '9')

/-- Anchored match of `([A-Z]{1,10})-(\d+)` (case-insensitive) against the
whole character list, returning the two groups.  A letter can never match
`-`, so the greedy `[A-Z]{1,10}` takes the maximal letter run and the
pattern matches exactly: 1–10 letters, a hyphen, then only digits
(at least one). -/
def issueIdCore (l : List Char) : Option (List Char × List Char) :=
  if l.takeWhile isAsciiLetter = [] ∨ 10 < (l.takeWhile isAsciiLetter).length then none
  else
    match l.dropWhile isAsciiLetter with
    | '-' :: ds =>
      if ds ≠ [] ∧ ds.all isAsciiDigit then some (l.takeWhile isAsciiLetter, ds) else none
    | _ => none

/-- `ISSUE_ID_PATTERN.match(query)` from `resolve.py`, with Python's
trailing-newline `$` semantics, returning `(group(1), group(2))`. -/
def issueIdMatch (s : String) : Option (String × String) :=
  match issueIdCore s.data with
  | some g => some (⟨g.1⟩, ⟨g.2⟩)
  | none =>
    match s.data.getLast? with
    | some c =>
      if c = '\n' then
        match issueIdCore s.data.dropLast with
        | some g => some (⟨g.1⟩, ⟨g.2⟩)
        | none => none
      else none
    | none => none

/-- Python `int()` on a digit string. -/
def digitsToNat (l : List Char) : Nat :=
  l.foldl (fun a c => a * 10 + (c.toNat - '0'.toNat)) 0

/-- The extraction every resolver performs on an identifier match:
`(id_match.group(1).upper(), int(id_match.group(2)))`. -/
def parseIssueId (s : String) : Option (String × Nat) :=
  (issueIdMatch s).map (fun g => (pyUpper g.1, digitsToNat g.2.data))

/-- Counterexample to C8 as stated: `_is_uuid` also accepts a canonical
UUID followed by one trailing newline — a 37-character string that does
not itself match the 8-4-4-4-12 pattern (Python's `$` matches before a
final newline).  Canonical UUIDs, case-insensitively, are accepted, and a
truncated UUID is rejected. -/
theorem is_uuid_trailing_newline :
    _is_uuid "aaaaaaaa-aaaa-aaaa-aaaa-aaaaaaaaaaaa\n" = true
    ∧ uuidCore ("aaaaaaaa-aaaa-aaaa-aaaa-aaaaaaaaaaaa\n".data) = false
    ∧ _is_uuid "AAAAAAAA-aaaa-AAAA-aaaa-aaaaaaaaaaaa" = true
    ∧ _is_uuid "aaaaaaaa-aaaa-aaaa-aaaa-aaaaaaaaaaa" = false := by
  exact ⟨by decide, by decide, by decide, by decide⟩

/-- C8 amended: `_is_uuid` returns true exactly for the strings matching
the canonical case-insensitive 8-4-4-4-12 hex pattern, or such a string
followed by one trailing newline; false for every other string (including
truncated or malformed UUIDs). -/
theorem is_uuid_characterization (s : String) :
    _is_uuid s = true ↔
      (uuidCore s.data = true ∨ ∃ t, s.data = t ++ ['\n'] ∧ uuidCore t = true) := by
  rcases List.eq_nil_or_concat s.data with hnil | ⟨l', a, hcat⟩
  · rw [_is_uuid, hnil]
    simp
  · rw [List.concat_eq_append] at hcat
    rw [_is_uuid, hcat]
    by_cases ha : a = '\n'
    · subst ha
      simp only [List.getLast?_concat, List.dropLast_concat, Bool.or_eq_true,
        Bool.and_eq_true, decide_eq_true_eq]
      constructor
      · rintro (h | ⟨-, h⟩)
        · exact Or.inl h
        · exact Or.inr ⟨l', rfl, h⟩
      · rintro (h | ⟨t, ht, hu⟩)
        · exact Or.inl h
        · have : t = l' := List.append_cancel_right ht.symm
          subst this
          exact Or.inr ⟨trivial, hu⟩
    · simp only [List.getLast?_concat, List.dropLast_concat, Bool.or_eq_true,
        Bool.and_eq_true, decide_eq_true_eq]
      constructor
      · rintro (h | ⟨hc, -⟩)
        · exact Or.inl h
        · exact absurd hc ha
      · rintro (h | ⟨t, ht, hu⟩)
        · exact Or.inl h
        · exfalso
          apply ha
          have h1 : some a = some '\n' := by
            calc some a = (l' ++ [a]).getLast? := (List.getLast?_concat _).symm
              _ = (t ++ ['\n']).getLast? := by rw [ht]
              _ = some '\n' := List.getLast?_concat _
          injection h1

/-- Witness for the amended C8: applying the characterization at an
accepted mixed-case UUID and at the trailing-newline string. -/
theorem is_uuid_characterization_witness :
    (uuidCore ("AAAAAAAA-aaaa-AAAA-aaaa-aaaaaaaaaaaa" : String).data = true
      ∨ ∃ t, ("AAAAAAAA-aaaa-AAAA-aaaa-aaaaaaaaaaaa" : String).data = t ++ ['\n']
          ∧ uuidCore t = true)
    ∧ (uuidCore ("aaaaaaaa-aaaa-aaaa-aaaa-aaaaaaaaaaaa\n" : String).data = true
      ∨ ∃ t, ("aaaaaaaa-aaaa-aaaa-aaaa-aaaaaaaaaaaa\n" : String).data = t ++ ['\n']
          ∧ uuidCore t = true) :=
  ⟨(is_uuid_characterization _).mp (by decide),
   (is_uuid_characterization _).mp (by decide)⟩

/-- C9: the structured identifier pattern matches `"ABC-123"` with raw
groups `("ABC", "123")` — extracted by every resolver as `("ABC", 123)` —
and `"a-1"` with raw groups `("a", "1")`, extracted (after the resolvers'
`.upper()` / `int()` normalization) as `("A", 1)`; it does not match
`"ABC-"`, `"-123"`, or `"A1B-123"`. -/
theorem issue_id_pattern_examples :
    issueIdMatch "ABC-123" = some ("ABC", "123")
    ∧ parseIssueId "ABC-123" = some ("ABC", 123)
    ∧ issueIdMatch "a-1" = some ("a", "1")
    ∧ parseIssueId "a-1" = some ("A", 1)
    ∧ issueIdMatch "ABC-" = none
    ∧ issueIdMatch "-123" = none
    ∧ issueIdMatch "A1B-123" = none := by
  exact ⟨by decide, by decide, by decide, by decide, by decide, by decide, by decide⟩

/-! ## Cross-project work-item resolution (`resolve.py`) -/

/-- The dict a raw work-item `_get` returns: the `project` field (read
via `item_dict.get("project", "")`) plus an abstract payload for the
remaining fields. -/
structure ItemDict (δ : Type) where
  project : Option String
  payload : δ
deriving DecidableEq, Repr

/-- A project record as used by the cross-project loop (`p.id`). -/
structure ProjRec (δ : Type) where
  id : String
  payload : δ
deriving DecidableEq, Repr

/-- The resolver's failure modes: `ResourceNotFoundError(kind, query)` or
a propagated Python exception. -/
inductive ResolveError where
  | notFound (kind : String) (query : String)
  | raised (e : PyError)
deriving DecidableEq, Repr

/-- The `except HttpError as e: _reraise_if_retryable(e); raise
ResourceNotFoundError(kind, query)` pattern: a retryable HTTP error is
re-raised as itself, a non-retryable HTTP error becomes not-found, and a
non-HTTP exception is not caught at all. -/
def handleHttp (e : PyError) (kind query : String) : ResolveError :=
  match e with
  | .http s d =>
    if _is_retryable (.http s d) then .raised (.http s d) else .notFound kind query
  | .other d => .raised (.other d)

/-- One remote interaction of the resolver, for call-trace observation. -/
inductive RemoteCall where
  | identGet
  | listProjects
  | itemGet (projectId : String)
deriving DecidableEq, Repr

/-- The per-project loop of `resolve_work_item_across_projects`: a direct
`_get` per project in order; a non-retryable HTTP error means "not in
this project" and the loop continues; a retryable one is re-raised; a
non-HTTP exception propagates; an exhausted loop raises not-found.
Also returns the trace of per-project calls made. -/
def tryProjects (itemGet : String → Except PyError (ItemDict δ)) (query : String) :
    List (ProjRec δ) → Except ResolveError (ItemDict δ × String) × List RemoteCall
  | [] => (.error (.notFound "Work item" query), [])
  | p :: rest =>
    match itemGet p.id with
    | .ok d => (.ok (d, p.id), [.itemGet p.id])
    | .error (.http s dd) =>
      if _is_retryable (.http s dd) then (.error (.raised (.http s dd)), [.itemGet p.id])
      else
        match tryProjects itemGet query rest with
        | (r, tr) => (r, .itemGet p.id :: tr)
    | .error (.other dd) => (.error (.raised (.other dd)), [.itemGet p.id])

/-- `resolve_work_item_across_projects` from `resolve.py` (the sync
variant; the async one has the same branch structure), with the remote
calls as oracles: `identGet ident num` is
`client.work_items._get(f"{ws}/work-items/{ident}-{num}")`, `pages`
drives `_paginate_all(client.projects.list, workspace)` and `itemGet pid`
is the per-project work-item `_get`.  Returns the outcome together with
the trace of remote interactions; `none` when pagination fuel runs
out. -/
def resolve_work_item_across_projects (query : String)
    (identGet : String → Nat → Except PyError (ItemDict δ))
    (pages : Option String → Nat → Except PyError (Page (ProjRec δ)))
    (itemGet : String → Except PyError (ItemDict δ))
    (fuel : Nat) :
    Option (Except ResolveError (ItemDict δ × String) × List RemoteCall) :=
  match parseIssueId query with
  | some g =>
    some (match identGet g.1 g.2 with
      | .ok d => (.ok (d, d.project.getD ""), [.identGet])
      | .error e => (.error (handleHttp e "Work item" query), [.identGet]))
  | none =>
    if _is_uuid query then
      match _paginate_all pages fuel none with
      | none => none
      | some (.error e) => some (.error (.raised e), [.listProjects])
      | some (.ok (projects, _counts)) =>
        some (match tryProjects itemGet query projects with
          | (r, tr) => (r, .listProjects :: tr))
    else
      some (.error (.notFound "Work item"
        (query ++ " (specify --project for fuzzy name search)")), [])

/-- C7: a query that is neither a UUID nor a structured identifier is
rejected immediately by cross-project resolution as a
`ResourceNotFoundError` carrying a "specify --project" usage hint, with
an empty remote-call trace — no identifier lookup, no project listing,
no per-project retrieval (and the function has no fuzzy path at all) —
whatever the remote oracles would answer. -/
theorem bare_name_rejected_immediately (query : String)
    (identGet : String → Nat → Except PyError (ItemDict δ))
    (pages : Option String → Nat → Except PyError (Page (ProjRec δ)))
    (itemGet : String → Except PyError (ItemDict δ)) (fuel : Nat)
    (h1 : parseIssueId query = none) (h2 : _is_uuid query = false) :
    resolve_work_item_across_projects query identGet pages itemGet fuel
      = some (.error (.notFound "Work item"
          (query ++ " (specify --project for fuzzy name search)")), []) := by
  simp [resolve_work_item_across_projects, h1, h2]

/-- Witness for C7: a bare name query is rejected at once with the usage
hint and no remote call, even with oracles that would fail loudly. -/
theorem bare_name_rejected_immediately_witness :
    parseIssueId "fix the login page" = none
    ∧ _is_uuid "fix the login page" = false
    ∧ resolve_work_item_across_projects "fix the login page"
        (fun _ _ => (.error (.other 0) : Except PyError (ItemDict Nat)))
        (fun _ _ => .error (.other 0)) (fun _ => .error (.other 0)) 5
      = some (.error (.notFound "Work item"
          "fix the login page (specify --project for fuzzy name search)"), []) := by
  refine ⟨by decide, by decide, ?_⟩
  exact bare_name_rejected_immediately "fix the login page"
    (fun _ _ => (.error (.other 0) : Except PyError (ItemDict Nat)))
    (fun _ _ => .error (.other 0)) (fun _ => .error (.other 0)) 5
    (by decide) (by decide)

/-! ## Project resolution (`resolve_project` in `resolve.py`) -/

/-- A project record as seen by `resolve_project`: `identifier` is `none`
when absent (`hasattr` false or `None`); `name` likewise (`p.name or ""`);
`payload` abstracts the remaining fields, so `model_dump` is the record
itself. -/
structure ProjModel (δ : Type) where
  identifier : Option String
  name : Option String
  payload : δ
deriving DecidableEq, Repr

/-- The test of `resolve_project`'s exact-identifier loop:
`hasattr(p, "identifier") and p.identifier and
p.identifier.upper() == query.upper()`. -/
def identMatches (query : String) (p : ProjModel δ) : Bool :=
  match p.identifier with
  | some pid => !decide (pid = "") && decide (pyUpper pid = pyUpper query)
  | none => false

/-- The exact-identifier loop (`for p in projects: ... return p`):
first matching project wins. -/
def findIdentMatch (query : String) : List (ProjModel δ) → Option (ProjModel δ)
  | [] => none
  | p :: rest => if identMatches query p then some p else findIdentMatch query rest

/-- `p.name or ""`. -/
def projName (p : ProjModel δ) : String := p.name.getD ""

/-- `find_matches` from `fuzzy.py`: every candidate at or above the
threshold, sorted by descending score (Python's stable sort with
`reverse=True`), truncated to `limit`. -/
def find_matches (query : String) (items : List α) (key : α → String)
    (sf : String → String → ℚ) (limit : Nat) (threshold : ℚ) : List (FuzzyMatch α) :=
  ((items.filterMap (fun item =>
      if threshold ≤ scoreOf sf query key item then
        some (⟨item, scoreOf sf query key item, key item⟩ : FuzzyMatch α)
      else none)).mergeSort (fun a b => decide (b.score ≤ a.score))).take limit

/-- `resolve_project` from `resolve.py` (the sync variant; the async one
has the same tier order): UUID direct retrieve; otherwise paginate all
projects, try the exact (case-insensitive) identifier match, then the
fuzzy name match at threshold 60, and finally not-found with up to three
threshold-30 suggestions in the message.  `retrieve` is the outcome of
`client.projects.retrieve(workspace, query)`; `pages` drives
`_paginate_all(client.projects.list, workspace)`; `sf` is the rapidfuzz
scorer; `none` means pagination fuel ran out. -/
def resolve_project (query : String)
    (retrieve : Except PyError (ProjModel δ))
    (pages : Option String → Nat → Except PyError (Page (ProjModel δ)))
    (sf : String → String → ℚ) (fuel : Nat) :
    Option (Except ResolveError (ProjModel δ)) :=
  if _is_uuid query then
    some (match retrieve with
      | .ok p => .ok p
      | .error e => .error (handleHttp e "Project" query))
  else
    match _paginate_all pages fuel none with
    | none => none
    | some (.error e) => some (.error (.raised e))
    | some (.ok (projects, _counts)) =>
      match findIdentMatch query projects with
      | some p => some (.ok p)
      | none =>
        match find_best_match query projects projName sf 60 with
        | some m => some (.ok m.item)
        | none =>
          match find_matches query projects projName sf 5 30 with
          | [] => some (.error (.notFound "Project" query))
          | suggestions =>
            some (.error (.notFound "Project"
              (query ++ " (did you mean: "
                ++ String.intercalate ", "
                    ((suggestions.take 3).map (fun m => "\"" ++ m.matched_value ++ "\""))
                ++ "?)")))

theorem findIdentMatch_of_exists (query : String) (l : List (ProjModel δ))
    (h : ∃ p ∈ l, identMatches query p = true) :
    ∃ p₀, findIdentMatch query l = some p₀ ∧ identMatches query p₀ = true := by
  induction l with
  | nil => simp at h
  | cons p rest ih =>
    by_cases hp : identMatches query p = true
    · exact ⟨p, by simp [findIdentMatch, hp], hp⟩
    · obtain ⟨q, hq, hmq⟩ := h
      rcases List.mem_cons.1 hq with rfl | hq'
      · exact absurd hmq hp
      · obtain ⟨p₀, h1, h2⟩ := ih ⟨q, hq', hmq⟩
        exact ⟨p₀, by simp [findIdentMatch, hp, h1], h2⟩

/-- C10: for a non-UUID query, when some fetched project's short-code
identifier equals the query case-insensitively (and is nonempty), project
resolution returns the first such project — whatever the scoring function
says about any project's name and whatever the UUID-retrieve oracle
would answer — so the exact-identifier tier precedes fuzzy matching. -/
theorem project_identifier_tier (query : String)
    (pages : Option String → Nat → Except PyError (Page (ProjModel δ)))
    (fuel : Nat) (projects : List (ProjModel δ)) (counts : List Nat)
    (hq : _is_uuid query = false)
    (hpag : _paginate_all pages fuel none = some (.ok (projects, counts)))
    (hex : ∃ p ∈ projects, identMatches query p = true) :
    ∃ p₀, findIdentMatch query projects = some p₀
      ∧ identMatches query p₀ = true
      ∧ ∀ (sf : String → String → ℚ) (retrieve : Except PyError (ProjModel δ)),
          resolve_project query retrieve pages sf fuel = some (.ok p₀) := by
  obtain ⟨p₀, hfind, hm⟩ := findIdentMatch_of_exists query projects hex
  refine ⟨p₀, hfind, hm, fun sf retrieve => ?_⟩
  simp [resolve_project, hq, hpag, hfind]

/-- The single-page project listing used by the C10 witness. -/
def c10Pages : Option String → Nat → Except PyError (Page (ProjModel Nat))
  | none, _ => .ok ⟨[⟨some "API", some "Backend API", 1⟩,
                     ⟨some "WEB", some "Website", 2⟩], false, none⟩
  | some _, _ => .error (.other 0)

/-- Witness for C10: the query `"web"` hits the second project's
identifier `WEB` and is returned even under a scorer that gives every
name the maximal score (which would otherwise select the first
project). -/
theorem project_identifier_tier_witness :
    _is_uuid "web" = false
    ∧ _paginate_all c10Pages 1 none
        = some (.ok ([⟨some "API", some "Backend API", 1⟩,
                      ⟨some "WEB", some "Website", 2⟩], [1]))
    ∧ resolve_project "web" (.error (.other 0)) c10Pages (fun _ _ => 100) 1
        = some (.ok ⟨some "WEB", some "Website", 2⟩) := by
  refine ⟨by decide, by decide, ?_⟩
  obtain ⟨p₀, hfind, -, hall⟩ := project_identifier_tier "web" c10Pages 1
    [⟨some "API", some "Backend API", 1⟩, ⟨some "WEB", some "Website", 2⟩] [1]
    (by decide) (by decide)
    ⟨⟨some "WEB", some "Website", 2⟩, by decide, by decide⟩
  have hfind' : findIdentMatch "web"
      [⟨some "API", some "Backend API", 1⟩, ⟨some "WEB", some "Website", 2⟩]
      = some (⟨some "WEB", some "Website", 2⟩ : ProjModel Nat) := by decide
  rw [hfind'] at hfind
  have hp : p₀ = (⟨some "WEB", some "Website", 2⟩ : ProjModel Nat) := by
    injection hfind with h
    exact h.symm
  rw [hp] at hall
  exact hall (fun _ _ => 100) (.error (.other 0))

end PlaneCli
